import Mathlib

/-!
Verification of the live-conversation audio core and service layer of the
Al-Bayan lecture application.  The component `LiveConversation` is embedded
as a state machine over rational clock values; the storage service and the
summary post-processing of the service layer are embedded as pure functions.
-/

namespace AlBayan

/-- One inbound audio chunk as seen by the playback path of `onMessage`:
its decoded duration in seconds, and whether `decodeAudioData` succeeds
on it. -/
structure InboundChunk where
  duration : ℚ
  decodeOk : Bool
deriving DecidableEq

/-- The mutable state of the `LiveConversation` component: the scheduling
cursor `nextStartTimeRef`, the active buffer set `sourcesRef` (as a list of
ids, `nextId` supplying fresh ids), the three UI flags, and one boolean per
held resource reference (`mediaStreamRef`, `processorRef`, `sourceRef`,
`audioContextRef`, plus the locally created output context). -/
structure LiveState where
  nextStartTime : ℚ
  sources : List ℕ
  nextId : ℕ
  isAgentSpeaking : Bool
  isConnected : Bool
  isSpeaking : Bool
  mediaStream : Bool
  processor : Bool
  sourceNode : Bool
  inputContext : Bool
  outputContextOpen : Bool
deriving DecidableEq

/-- State at component mount: every ref null, every flag false, cursor 0. -/
def initialState : LiveState :=
  { nextStartTime := 0, sources := [], nextId := 0, isAgentSpeaking := false,
    isConnected := false, isSpeaking := false, mediaStream := false,
    processor := false, sourceNode := false, inputContext := false,
    outputContextOpen := false }

/-- Teardown routine of the component.  It stops the media tracks,
disconnects processor and source, closes the input audio context, resets
the flags and the cursor, and stops and clears the scheduled sources.  It
does not touch the output context and sends nothing to the session. -/
def stopEverything (st : LiveState) : LiveState :=
  { st with
    mediaStream := false
    processor := false
    sourceNode := false
    inputContext := false
    isConnected := false
    isSpeaking := false
    isAgentSpeaking := false
    nextStartTime := 0
    sources := [] }

/-- The `msg.serverContent.interrupted` branch at the end of `onMessage`:
stop every active source, clear the set, zero the cursor, clear the
agent-speaking flag. -/
def handleInterrupted (st : LiveState) (interrupted : Bool) : LiveState :=
  if interrupted then
    { st with sources := [], nextStartTime := 0, isAgentSpeaking := false }
  else st

/-- The `onMessage` callback.  `clock` is `outputContext.currentTime` when
the message is handled.  When audio data is present the flag is raised
first, then the chunk is decoded; a decode failure aborts the rest of the
handler (including the interrupted branch).  A successfully decoded chunk
is scheduled at `nextStartTimeRef` after the cursor is pulled up to the
clock, the cursor advances by the chunk duration, and the new source joins
the active set.  Returns the new state and the scheduled start time, if
any chunk was scheduled. -/
def onMessage (st : LiveState) (clock : ℚ) (audioData : Option InboundChunk)
    (interrupted : Bool) : LiveState × Option ℚ :=
  match audioData with
  | none => (handleInterrupted st interrupted, none)
  | some a =>
    let st1 := { st with isAgentSpeaking := true }
    if a.decodeOk then
      let start := if st1.nextStartTime < clock then clock else st1.nextStartTime
      let st2 := { st1 with
        nextStartTime := start + a.duration
        sources := st1.sources ++ [st1.nextId]
        nextId := st1.nextId + 1 }
      (handleInterrupted st2 interrupted, some start)
    else (st1, none)

/-- The `onended` completion callback of a scheduled source: remove it from
the active set and, when the set becomes empty, clear the flag. -/
def onEnded (st : LiveState) (sid : ℕ) : LiveState :=
  let remaining := st.sources.filter (fun s => s != sid)
  { st with
    sources := remaining
    isAgentSpeaking := if remaining.isEmpty then false else st.isAgentSpeaking }

/-- An event delivered to the component during a live session. -/
inductive LiveEvent
  | msg (clock : ℚ) (audioData : Option InboundChunk) (interrupted : Bool)
  | ended (sid : ℕ)
  | stop
deriving DecidableEq

/-- One step of the component, returning the scheduled start if the event
scheduled a chunk. -/
def liveStep (st : LiveState) : LiveEvent → LiveState × Option ℚ
  | .msg clock audioData interrupted => onMessage st clock audioData interrupted
  | .ended sid => (onEnded st sid, none)
  | .stop => (stopEverything st, none)

/-- Run a list of events, collecting every scheduled start time in order. -/
def runEvents (st : LiveState) : List LiveEvent → LiveState × List ℚ
  | [] => (st, [])
  | e :: es =>
    let r := liveStep st e
    let rr := runEvents r.1 es
    (rr.1, r.2.toList ++ rr.2)

/-- A plain sequence of inbound chunks: each pair is the output clock at
arrival and the decoded duration; every chunk decodes and none carries an
interruption. -/
def chunkEvents (chunks : List (ℚ × ℚ)) : List LiveEvent :=
  chunks.map (fun p => .msg p.1 (some ⟨p.2, true⟩) false)

/-- The start-time recurrence exactly as the spec states it: each chunk
starts at the max of the clock at its arrival and the running cursor, and
the cursor advances to start plus duration. -/
def specStarts (cursor : ℚ) : List (ℚ × ℚ) → List ℚ
  | [] => []
  | (c, d) :: rest =>
    let s := max c cursor
    s :: specStarts (s + d) rest

theorem ite_lt_eq_max (a b : ℚ) : (if a < b then b else a) = max b a := by
  rcases le_or_lt b a with h | h
  · rw [if_neg (not_lt.mpr h), max_eq_right h]
  · rw [if_pos h, max_eq_left h.le]

theorem runEvents_chunkEvents (chunks : List (ℚ × ℚ)) :
    ∀ st : LiveState,
      (runEvents st (chunkEvents chunks)).2 = specStarts st.nextStartTime chunks := by
  induction chunks with
  | nil => intro st; rfl
  | cons p rest ih =>
      intro st
      obtain ⟨c, d⟩ := p
      simp only [chunkEvents, List.map_cons, runEvents, liveStep, onMessage,
        handleInterrupted, if_neg Bool.false_ne_true, specStarts]
      rw [ite_lt_eq_max]
      have h2 := ih { st with
        nextStartTime := max c st.nextStartTime + d
        sources := st.sources ++ [st.nextId]
        nextId := st.nextId + 1
        isAgentSpeaking := true }
      simp only [chunkEvents] at h2
      simp [h2, ite_lt_eq_max]

theorem specStarts_head_ge (cursor : ℚ) (chunks : List (ℚ × ℚ)) :
    ∀ s ∈ (specStarts cursor chunks).head?, cursor ≤ s := by
  cases chunks with
  | nil => simp [specStarts]
  | cons p rest =>
      obtain ⟨c, d⟩ := p
      simp [specStarts, le_max_right]

theorem specStarts_chain (chunks : List (ℚ × ℚ)) :
    ∀ cursor : ℚ, (∀ p ∈ chunks, 0 ≤ p.2) →
      List.Chain' (fun a b => a ≤ b) (specStarts cursor chunks) := by
  induction chunks with
  | nil => intro cursor _; simp [specStarts]
  | cons p rest ih =>
      intro cursor hd
      obtain ⟨c, d⟩ := p
      have hd0 : (0 : ℚ) ≤ d := hd (c, d) (by simp)
      simp only [specStarts, List.chain'_cons']
      constructor
      · intro y hy
        have h1 := specStarts_head_ge (max c cursor + d) rest y hy
        have h2 : max c cursor ≤ max c cursor + d := by linarith
        exact le_trans h2 h1
      · exact ih (max c cursor + d) (fun q hq => hd q (by simp [hq]))

/-- Claim C1: over any sequence of inbound chunks handled by the playback
scheduling path, the scheduled start of each chunk is the max of the
output clock at its arrival and the end of the previous chunk, with the
cursor starting at 0 (this is exactly the recurrence `specStarts`), and
when durations are nonnegative the start times are non-decreasing. -/
theorem scheduled_start_times_spec (chunks : List (ℚ × ℚ))
    (hd : ∀ p ∈ chunks, 0 ≤ p.2) :
    (runEvents initialState (chunkEvents chunks)).2 = specStarts 0 chunks ∧
    List.Chain' (fun a b => a ≤ b) (runEvents initialState (chunkEvents chunks)).2 := by
  have h := runEvents_chunkEvents chunks initialState
  refine ⟨h, ?_⟩
  rw [h]
  exact specStarts_chain chunks 0 hd

theorem scheduled_start_times_spec_witness :
    (∀ p ∈ [((0 : ℚ), (1 : ℚ)), (2, 1)], 0 ≤ p.2) ∧
    ((runEvents initialState (chunkEvents [((0 : ℚ), (1 : ℚ)), (2, 1)])).2 =
        specStarts 0 [((0 : ℚ), (1 : ℚ)), (2, 1)] ∧
      List.Chain' (fun a b => a ≤ b)
        (runEvents initialState (chunkEvents [((0 : ℚ), (1 : ℚ)), (2, 1)])).2) :=
  ⟨by decide, scheduled_start_times_spec _ (by decide)⟩

/-- Claim C2 counterexample: processing an interruption while the output
clock stands at 5 resets the scheduling cursor to 0, not to the clock
value 5, so the cursor is not reset to the current clock time. -/
theorem interruption_cursor_counterexample :
    (onMessage initialState 5 none true).1.nextStartTime = 0 ∧ (0 : ℚ) ≠ 5 := by
  decide

/-- Claim C2 as amended: an interruption whose message either carries no
audio or carries audio that decodes empties the active set, clears the
agent-speaking flag, and resets the scheduling cursor to 0 (not to the
clock value; since the clock is nonnegative and scheduling takes a max
with the clock, the observable start of the next chunk is the same). -/
theorem interruption_flush (st : LiveState) (clock : ℚ)
    (audioData : Option InboundChunk) (hok : ∀ a ∈ audioData, a.decodeOk = true) :
    (onMessage st clock audioData true).1.sources = [] ∧
    (onMessage st clock audioData true).1.nextStartTime = 0 ∧
    (onMessage st clock audioData true).1.isAgentSpeaking = false := by
  cases audioData with
  | none => simp [onMessage, handleInterrupted]
  | some a =>
      have h := hok a rfl
      simp [onMessage, handleInterrupted, h]

theorem interruption_flush_witness :
    (∀ a ∈ (none : Option InboundChunk), a.decodeOk = true) ∧
    ((onMessage initialState 5 none true).1.sources = [] ∧
     (onMessage initialState 5 none true).1.nextStartTime = 0 ∧
     (onMessage initialState 5 none true).1.isAgentSpeaking = false) :=
  ⟨by simp, interruption_flush initialState 5 none (by simp)⟩

/-- Claim C5 counterexample: a chunk whose decode fails does change the
agent-speaking flag, because `setIsAgentSpeaking(true)` runs before the
decode; starting from the initial state, the flag flips from false to
true. -/
theorem decode_failure_flag_counterexample :
    initialState.isAgentSpeaking = false ∧
    (onMessage initialState 0 (some ⟨1, false⟩) false).1.isAgentSpeaking = true := by
  decide

/-- Claim C5 as amended: when decoding an inbound chunk fails, the chunk
is dropped (nothing is scheduled), the scheduling cursor and the active
set are unchanged, and no teardown happens (every resource field is
unchanged), so the session continues; however the agent-speaking flag has
already been set to true before the decode and stays true, and the
interrupted branch of the same message is skipped. -/
theorem decode_failure_drops_chunk (st : LiveState) (clock dur : ℚ)
    (interrupted : Bool) :
    onMessage st clock (some ⟨dur, false⟩) interrupted =
      ({ st with isAgentSpeaking := true }, none) :=
  rfl

/-- The order of operations on the success path of `startSession`: both
audio contexts are created, then the microphone is acquired with
`getUserMedia`, then the session is initiated; only once the session
signals open are the source node and the script processor created and
wired. -/
inductive SessionAct
  | createInputContext
  | createOutputContext
  | acquireCapture
  | connectSession
  | openSignaled
  | createSourceNode
  | createProcessor
  | connectGraph
deriving DecidableEq

def startSessionActs : List SessionAct :=
  [.createInputContext, .createOutputContext, .acquireCapture, .connectSession,
   .openSignaled, .createSourceNode, .createProcessor, .connectGraph]

/-- The resource references held after `startSession` has run up to (but
not including) the open signal: both contexts exist and the microphone
stream is held. -/
def startSessionPreOpen (st : LiveState) : LiveState :=
  { st with inputContext := true, outputContextOpen := true, mediaStream := true }

/-- Claim C3 counterexample: in the `startSession` trace the capture
device is acquired strictly before the open signal, so the component
holds a capture device handle before `onOpen` fires. -/
theorem capture_before_open_counterexample :
    startSessionActs.indexOf SessionAct.acquireCapture <
      startSessionActs.indexOf SessionAct.openSignaled ∧
    SessionAct.acquireCapture ∈ startSessionActs ∧
    SessionAct.openSignaled ∈ startSessionActs := by
  decide

/-- Claim C3 as amended: `startSession` acquires the capture device before
the streaming session is even initiated (hence before open); only the
capture processing graph (source node and processor) is built after the
open signal; and stopping while the pre-open handles are held releases the
capture device and leaves the component disconnected. -/
theorem start_session_order :
    startSessionActs.indexOf SessionAct.acquireCapture <
      startSessionActs.indexOf SessionAct.connectSession ∧
    startSessionActs.indexOf SessionAct.openSignaled <
      startSessionActs.indexOf SessionAct.createSourceNode ∧
    startSessionActs.indexOf SessionAct.openSignaled <
      startSessionActs.indexOf SessionAct.createProcessor ∧
    (stopEverything (startSessionPreOpen initialState)).mediaStream = false ∧
    (stopEverything (startSessionPreOpen initialState)).isConnected = false := by
  decide

/-- The operations `stopEverything` actually performs, in order; there is
no request to close the session (the code comments that the SDK promise is
just dropped) and the output audio context is never closed. -/
inductive TeardownAct
  | stopTracks
  | disconnectProcessor
  | disconnectSource
  | closeInputContext
  | resetState
  | stopSources
  | clearSources
  | closeSessionRequest
  | closeOutputContext
deriving DecidableEq

def stopEverythingActs : List TeardownAct :=
  [.stopTracks, .disconnectProcessor, .disconnectSource, .closeInputContext,
   .resetState, .stopSources, .clearSources]

/-- Claim C4 counterexample: `stopEverything` never asks the session
controller to close, and it leaves the output context reference open
(shown on the state reached right after a start). -/
theorem teardown_counterexample :
    TeardownAct.closeSessionRequest ∉ stopEverythingActs ∧
    (stopEverything (startSessionPreOpen initialState)).outputContextOpen = true := by
  decide

/-- Claim C4 as amended: `stopEverything` is idempotent and total; after
it completes the capture stage is stopped (stream, processor, source and
input context released), the active buffer set is empty, all flags and the
cursor are reset; but the output context reference is left exactly as it
was and no close request is ever sent to the session controller. -/
theorem stop_everything_amended (st : LiveState) :
    stopEverything (stopEverything st) = stopEverything st ∧
    (stopEverything st).sources = [] ∧
    (stopEverything st).mediaStream = false ∧
    (stopEverything st).processor = false ∧
    (stopEverything st).sourceNode = false ∧
    (stopEverything st).inputContext = false ∧
    (stopEverything st).isConnected = false ∧
    (stopEverything st).isSpeaking = false ∧
    (stopEverything st).isAgentSpeaking = false ∧
    (stopEverything st).nextStartTime = 0 ∧
    (stopEverything st).outputContextOpen = st.outputContextOpen ∧
    TeardownAct.closeSessionRequest ∉ stopEverythingActs :=
  ⟨rfl, rfl, rfl, rfl, rfl, rfl, rfl, rfl, rfl, rfl, rfl, by decide⟩

theorem stop_everything_amended_witness :
    stopEverything (stopEverything initialState) = stopEverything initialState ∧
    (stopEverything initialState).sources = [] ∧
    (stopEverything initialState).mediaStream = false ∧
    (stopEverything initialState).processor = false ∧
    (stopEverything initialState).sourceNode = false ∧
    (stopEverything initialState).inputContext = false ∧
    (stopEverything initialState).isConnected = false ∧
    (stopEverything initialState).isSpeaking = false ∧
    (stopEverything initialState).isAgentSpeaking = false ∧
    (stopEverything initialState).nextStartTime = 0 ∧
    (stopEverything initialState).outputContextOpen = initialState.outputContextOpen ∧
    TeardownAct.closeSessionRequest ∉ stopEverythingActs :=
  stop_everything_amended initialState

/-- True when the event is a message whose clock reading is at least `t`
(the output clock is monotone, so every event handled after time `t` has
such a reading). -/
def msgClockGe (t : ℚ) : LiveEvent → Bool
  | .msg c _ _ => decide (t ≤ c)
  | _ => true

theorem onMessage_start_ge (st : LiveState) (clock : ℚ)
    (audioData : Option InboundChunk) (intr : Bool) :
    ∀ s ∈ (onMessage st clock audioData intr).2, clock ≤ s := by
  cases audioData with
  | none => simp [onMessage]
  | some a =>
      intro s hs
      by_cases h : a.decodeOk = true
      · simp only [onMessage, h, if_true, Option.mem_def, Option.some.injEq] at hs
        rw [← hs]
        split
        · exact le_refl _
        · next hlt => exact le_of_not_lt hlt
      · simp [onMessage, h] at hs

theorem runEvents_start_lower (t : ℚ) (evs : List LiveEvent) :
    ∀ st : LiveState, (∀ e ∈ evs, msgClockGe t e = true) →
      ∀ s ∈ (runEvents st evs).2, t ≤ s := by
  induction evs with
  | nil => intro st _ s hs; simp [runEvents] at hs
  | cons e es ih =>
      intro st hok s hs
      simp only [runEvents, List.mem_append] at hs
      rcases hs with hs | hs
      · cases e with
        | msg c audioData i =>
            have hc : t ≤ c := by
              have h1 := hok _ (List.mem_cons_self _ _)
              simpa [msgClockGe] using h1
            have h2 : s ∈ (onMessage st c audioData i).2 := by
              simpa [liveStep, Option.mem_toList] using hs
            exact le_trans hc (onMessage_start_ge st c audioData i s h2)
        | ended sid => simp [liveStep] at hs
        | stop => simp [liveStep] at hs
      · exact ih (liveStep st e).1 (fun x hx => hok x (List.mem_cons_of_mem _ hx)) s hs

/-- Claim C6: after an interruption processed while the output clock reads
`tInt`, every chunk scheduled by later events whose clock readings are at
least `tInt` starts at or after `tInt`; moreover the very next decodable
chunk, arriving with clock `c` (nonnegative, at or after `tInt`), is
scheduled exactly at `c` rather than at the pre-interruption cursor. -/
theorem post_interruption_start_bound (st : LiveState) (tInt : ℚ)
    (evs : List LiveEvent) (c dur : ℚ)
    (hc : ∀ e ∈ evs, msgClockGe tInt e = true) (hge : 0 ≤ c) (hci : tInt ≤ c) :
    (∀ s ∈ (runEvents (onMessage st tInt none true).1 evs).2, tInt ≤ s) ∧
    (onMessage (onMessage st tInt none true).1 c (some ⟨dur, true⟩) false).2 = some c := by
  constructor
  · exact runEvents_start_lower tInt evs _ hc
  · have h0 : (handleInterrupted st true).nextStartTime = 0 := rfl
    show (onMessage (handleInterrupted st true) c (some ⟨dur, true⟩) false).2 = some c
    simp only [onMessage, if_true, h0]
    rcases eq_or_lt_of_le hge with h | h
    · rw [← h]
      simp
    · rw [if_pos h]

theorem post_interruption_start_bound_witness :
    ((∀ e ∈ ([] : List LiveEvent), msgClockGe (3 / 10) e = true) ∧
      (0 : ℚ) ≤ 3 / 10 ∧ (3 : ℚ) / 10 ≤ 3 / 10) ∧
    ((∀ s ∈ (runEvents (onMessage ((onMessage initialState 0
          (some ⟨1, true⟩) false).1) (3 / 10) none true).1 []).2, (3 : ℚ) / 10 ≤ s) ∧
      (onMessage (onMessage ((onMessage initialState 0 (some ⟨1, true⟩) false).1)
          (3 / 10) none true).1 (3 / 10) (some ⟨1, true⟩) false).2 = some (3 / 10)) :=
  ⟨⟨by simp, by norm_num, le_refl _⟩,
    post_interruption_start_bound ((onMessage initialState 0 (some ⟨1, true⟩) false).1)
      (3 / 10) [] (3 / 10) 1 (by simp) (by norm_num) (le_refl _)⟩

/-- The invariant the spec states for the activity flags: the
agent-speaking flag is set exactly when the active buffer set is
non-empty. -/
def AgentInv (st : LiveState) : Prop :=
  st.isAgentSpeaking = true ↔ st.sources ≠ []

/-- True unless the event is a message carrying a chunk whose decode
fails. -/
def eventDecodesOk : LiveEvent → Bool
  | .msg _ (some a) _ => a.decodeOk
  | _ => true

theorem agentInv_step (st : LiveState) (e : LiveEvent) (hst : AgentInv st)
    (he : eventDecodesOk e = true) : AgentInv (liveStep st e).1 := by
  cases e with
  | stop => simp [liveStep, stopEverything, AgentInv]
  | ended sid =>
      simp only [liveStep, onEnded, AgentInv] at *
      by_cases h : (st.sources.filter (fun s => s != sid)).isEmpty
      · have h2 : st.sources.filter (fun s => s != sid) = [] :=
          List.isEmpty_iff.mp h
        simp [h, h2]
      · have hne : st.sources.filter (fun s => s != sid) ≠ [] := by
          intro hcon
          rw [hcon] at h
          exact h rfl
        have hsrc : st.sources ≠ [] := by
          intro hcon
          apply hne
          rw [hcon]
          rfl
        simp [h, hne, hst.mpr hsrc]
  | msg clock audioData interrupted =>
      cases audioData with
      | none =>
          cases interrupted
          · simpa [liveStep, onMessage, handleInterrupted, AgentInv] using hst
          · simp [liveStep, onMessage, handleInterrupted, AgentInv]
      | some a =>
          have ha : a.decodeOk = true := he
          cases interrupted
          · simp [liveStep, onMessage, handleInterrupted, AgentInv, ha]
          · simp [liveStep, onMessage, handleInterrupted, AgentInv, ha]

theorem agentInv_runEvents (evs : List LiveEvent) :
    ∀ st : LiveState, AgentInv st → (∀ e ∈ evs, eventDecodesOk e = true) →
      AgentInv (runEvents st evs).1 := by
  induction evs with
  | nil => intro st h _; simpa [runEvents] using h
  | cons e es ih =>
      intro st h hok
      have h1 := agentInv_step st e h (hok e (List.mem_cons_self _ _))
      have h2 := ih (liveStep st e).1 h1 (fun x hx => hok x (List.mem_cons_of_mem _ hx))
      simpa [runEvents] using h2

/-- Claim C7 counterexample: one message carrying a chunk whose decode
fails leaves the agent-speaking flag true while the active set is empty,
so the flag is not equivalent to non-emptiness of the set at every point
of a session. -/
theorem agent_flag_counterexample :
    (liveStep initialState (.msg 0 (some ⟨1, false⟩) false)).1.isAgentSpeaking = true ∧
    (liveStep initialState (.msg 0 (some ⟨1, false⟩) false)).1.sources = [] := by
  decide

/-- Claim C7 as amended: along any session in which every inbound chunk
decodes successfully, the agent-speaking flag is true exactly when the
active buffer set is non-empty (a failed decode breaks the equivalence by
raising the flag without adding a buffer). -/
theorem agent_speaking_iff_active (evs : List LiveEvent)
    (hok : ∀ e ∈ evs, eventDecodesOk e = true) :
    ((runEvents initialState evs).1.isAgentSpeaking = true ↔
      (runEvents initialState evs).1.sources ≠ []) :=
  agentInv_runEvents evs initialState (by simp [AgentInv, initialState]) hok

theorem agent_speaking_iff_active_witness :
    (∀ e ∈ [LiveEvent.msg 0 (some ⟨1, true⟩) false], eventDecodesOk e = true) ∧
    ((runEvents initialState [LiveEvent.msg 0 (some ⟨1, true⟩) false]).1.isAgentSpeaking = true ↔
      (runEvents initialState [LiveEvent.msg 0 (some ⟨1, true⟩) false]).1.sources ≠ []) :=
  ⟨by decide, agent_speaking_iff_active _ (by decide)⟩

/-- The per-frame volume check inside the `onaudioprocess` handler: the
sum of absolute sample values, as computed by the reduce over the input
buffer. -/
def onAudioProcessSum (inputData : List ℚ) : ℚ :=
  inputData.foldl (fun a b => a + |b|) 0

/-- The `setIsSpeaking(sum > 10)` threshold test of the handler. -/
def onAudioProcessIsSpeaking (inputData : List ℚ) : Bool :=
  decide (10 < onAudioProcessSum inputData)

/-- The quantity the spec speaks about: mean absolute amplitude of a
frame. -/
def meanAbsAmplitude (inputData : List ℚ) : ℚ :=
  onAudioProcessSum inputData / inputData.length

theorem onAudioProcessSum_replicate (n : ℕ) (c : ℚ) :
    onAudioProcessSum (List.replicate n c) = n * |c| := by
  have h : ∀ (m : ℕ) (a : ℚ),
      (List.replicate m c).foldl (fun x b => x + |b|) a = a + m * |c| := by
    intro m
    induction m with
    | zero => intro a; simp
    | succ k ih =>
        intro a
        rw [List.replicate_succ, List.foldl_cons, ih]
        push_cast
        ring
  simpa [onAudioProcessSum] using h n 0

/-- Claim C8: the user-speaking signal of a 4096-sample capture frame is
true exactly when the mean absolute amplitude of the frame exceeds the
fixed threshold 10 / 4096; in particular an all-zero frame gives false and
a frame of constant amplitude above the threshold gives true. -/
theorem user_speaking_threshold (xs : List ℚ) (c : ℚ)
    (hlen : xs.length = 4096) (hc : 10 / 4096 < |c|) :
    (onAudioProcessIsSpeaking xs = true ↔ 10 / 4096 < meanAbsAmplitude xs) ∧
    onAudioProcessIsSpeaking (List.replicate 4096 (0 : ℚ)) = false ∧
    onAudioProcessIsSpeaking (List.replicate 4096 c) = true := by
  refine ⟨?_, ?_, ?_⟩
  · rw [onAudioProcessIsSpeaking, decide_eq_true_iff]
    unfold meanAbsAmplitude
    rw [hlen]
    have h4 : ((4096 : ℕ) : ℚ) = 4096 := by norm_num
    rw [h4]
    constructor
    · intro h
      rw [div_lt_div_iff (by norm_num) (by norm_num)]
      linarith
    · intro h
      rw [div_lt_div_iff (by norm_num) (by norm_num)] at h
      linarith
  · unfold onAudioProcessIsSpeaking
    rw [onAudioProcessSum_replicate, decide_eq_false_iff_not]
    norm_num
  · have h1 : (10 : ℚ) < |c| * 4096 := (div_lt_iff (by norm_num)).mp hc
    unfold onAudioProcessIsSpeaking
    rw [onAudioProcessSum_replicate, decide_eq_true_iff]
    push_cast
    linarith

theorem user_speaking_threshold_witness :
    ((List.replicate 4096 (0 : ℚ)).length = 4096 ∧ (10 : ℚ) / 4096 < |(1 : ℚ)|) ∧
    ((onAudioProcessIsSpeaking (List.replicate 4096 (0 : ℚ)) = true ↔
        10 / 4096 < meanAbsAmplitude (List.replicate 4096 (0 : ℚ))) ∧
      onAudioProcessIsSpeaking (List.replicate 4096 (0 : ℚ)) = false ∧
      onAudioProcessIsSpeaking (List.replicate 4096 (1 : ℚ)) = true) :=
  ⟨⟨by rw [List.length_replicate], by norm_num⟩,
    user_speaking_threshold _ 1 (by rw [List.length_replicate]) (by norm_num)⟩

/-- Runtime JSON values as produced by parsing the model response text,
plus the undefined value produced by accessing a missing property. -/
inductive Json where
  | null
  | undefined
  | bool (b : Bool)
  | num (q : ℚ)
  | str (s : String)
  | arr (elems : List Json)
  | obj (fields : List (String × Json))

/-- Truthiness of a runtime value, as used by the fallback operator. -/
def jsTruthy : Json → Bool
  | .null => false
  | .undefined => false
  | .bool b => b
  | .num q => decide (q ≠ 0)
  | .str s => !s.isEmpty
  | .arr _ => true
  | .obj _ => true

/-- The fallback operator between two values: the left value when truthy,
the right one otherwise. -/
def jsOr (a b : Json) : Json :=
  if jsTruthy a then a else b

/-- The array check applied to the claims, transliterations and warnings
fields. -/
def isArray : Json → Bool
  | .arr _ => true
  | _ => false

/-- Property access: a type error (modelled as `Except.error`) on a null
or undefined base; the undefined value for a missing field or a primitive
base. -/
def getProp : Json → String → Except Unit Json
  | .null, _ => .error ()
  | .undefined, _ => .error ()
  | .obj fields, name =>
      .ok (((fields.find? (fun p => p.1 == name)).map Prod.snd).getD .undefined)
  | _, _ => .ok .undefined

/-- Property access through optional chaining: never a type error, the
undefined value instead. -/
def getPropOpt (j : Json) (name : String) : Json :=
  match getProp j name with
  | .ok v => v
  | .error _ => .undefined

/-- Length of a runtime array (only applied to values already validated to
be arrays). -/
def jsArrayLength : Json → ℕ
  | .arr l => l.length
  | _ => 0

/-- Write a property on an object field list, overwriting an existing
key. -/
def setObjProp (fields : List (String × Json)) (name : String) (v : Json) :
    List (String × Json) :=
  if fields.any (fun p => p.1 == name) then
    fields.map (fun p => if p.1 == name then (p.1, v) else p)
  else fields ++ [(name, v)]

/-- The filter and map over grounding chunks: keep chunks whose web uri is
truthy and turn each into a source object of title and uri; accessing
the web property of a null or undefined chunk is a type error. -/
def extractSources (chunks : List Json) : Except Unit (List Json) :=
  match chunks with
  | [] => .ok []
  | c :: rest => do
      let w ← getProp c "web"
      let rest2 ← extractSources rest
      if jsTruthy (getPropOpt w "uri") then
        .ok (Json.obj [("title", getPropOpt w "title"),
                       ("uri", getPropOpt w "uri")] :: rest2)
      else .ok rest2

/-- The summary record assembled by the validation step; every field keeps
its runtime value. -/
structure LectureSummary where
  summary_short : Json
  summary_medium : Json
  summary_long : Json
  claims : Json
  transliterations : Json
  warnings : Json

/-- The validation step of `summarizeLecture`: each summary field falls
back to a fixed string when falsy, each list field is replaced by an empty
array unless it already is an array; reading a field of a null parse
result is a type error. -/
def buildSummaryData (parsed : Json) : Except Unit LectureSummary :=
  match getProp parsed "summary_short", getProp parsed "summary_medium",
        getProp parsed "summary_long", getProp parsed "claims",
        getProp parsed "transliterations", getProp parsed "warnings" with
  | .ok ss, .ok sm, .ok sl, .ok cl, .ok tr, .ok wa =>
      .ok { summary_short := jsOr ss (.str "Summary generation failed.")
            summary_medium := jsOr sm (.str "Summary generation failed.")
            summary_long := jsOr sl (.str "Summary generation failed.")
            claims := if isArray cl then cl else .arr []
            transliterations := if isArray tr then tr else .arr []
            warnings := if isArray wa then wa else .arr [] }
  | _, _, _, _, _, _ => .error ()

/-- Attaching the retrieved sources to the first claim: a no-op when the
first claim is falsy; a property write when it is an object; writing a
property of a primitive first claim is a type error in strict mode. -/
def attachSourcesToClaims (claims : Json) (sources : Json) : Except Unit Json :=
  match claims with
  | .arr (c0 :: rest) =>
      if jsTruthy c0 then
        match c0 with
        | .obj fields => .ok (.arr (.obj (setObjProp fields "sources" sources) :: rest))
        | .arr l => .ok (.arr (.arr l :: rest))
        | _ => .error ()
      else .ok (.arr (c0 :: rest))
  | other => .ok other

/-- The post-processing of `summarizeLecture` after the model call: the
parse outcome is `none` when `JSON.parse` threw (the catch block leaves an
empty object), `some v` when it returned `v`; `groundingChunks` is the
optional grounding metadata. -/
def summarizeLecture (parseOutcome : Option Json)
    (groundingChunks : Option (List Json)) : Except Unit LectureSummary := do
  let parsed := parseOutcome.getD (.obj [])
  let sd ← buildSummaryData parsed
  match groundingChunks with
  | none => pure sd
  | some chunks =>
      if jsArrayLength sd.claims > 0 then do
        let sources ← extractSources chunks
        if sources.length > 0 then do
          let newClaims ← attachSourcesToClaims sd.claims (.arr sources)
          pure { sd with claims := newClaims }
        else pure sd
      else pure sd

/-- Claim C9 counterexample: when the response text parses to JSON null,
`summarizeLecture` raises a type error instead of returning a summary;
and when the parsed object carries a numeric summary field, the returned
summary field is that number, not a non-empty string. -/
theorem summarize_counterexample :
    summarizeLecture (some Json.null) none = Except.error () ∧
    summarizeLecture (some (Json.obj [("summary_short", Json.num 5)])) none =
      Except.ok { summary_short := Json.num 5,
                  summary_medium := Json.str "Summary generation failed.",
                  summary_long := Json.str "Summary generation failed.",
                  claims := Json.arr [], transliterations := Json.arr [],
                  warnings := Json.arr [] } :=
  ⟨rfl, rfl⟩

theorem jsTruthy_jsOr (a b : Json) (hb : jsTruthy b = true) :
    jsTruthy (jsOr a b) = true := by
  unfold jsOr
  by_cases h : jsTruthy a = true
  · rw [if_pos h]; exact h
  · rw [if_neg h]; exact hb

theorem jsOr_str_ne (a : Json) (s : String)
    (h : jsOr a (Json.str "Summary generation failed.") = Json.str s) : s ≠ "" := by
  intro hs
  subst hs
  unfold jsOr at h
  by_cases ht : jsTruthy a = true
  · rw [if_pos ht] at h
    rw [h] at ht
    exact absurd ht (by decide)
  · rw [if_neg ht] at h
    injection h with h2
    exact absurd h2 (by decide)

theorem isArray_validate (cl : Json) :
    isArray (if isArray cl then cl else .arr []) = true := by
  by_cases h : isArray cl = true
  · rw [if_pos h]; exact h
  · rw [if_neg h]; rfl

theorem getProp_ok (j : Json) (hn : j ≠ .null) (hu : j ≠ .undefined) (name : String) :
    ∃ v, getProp j name = .ok v := by
  cases j with
  | null => exact absurd rfl hn
  | undefined => exact absurd rfl hu
  | bool b => exact ⟨_, rfl⟩
  | num q => exact ⟨_, rfl⟩
  | str s => exact ⟨_, rfl⟩
  | arr l => exact ⟨_, rfl⟩
  | obj fields => exact ⟨_, rfl⟩

/-- Claim C9 as amended: whenever the parse outcome is an actual JSON
value other than null (or the parse failed and was caught), and no
grounding metadata is attached, `summarizeLecture` returns a summary
whose claims, transliterations and warnings are arrays, whose three
summary fields are truthy (falling back to a fixed non-empty string when
the parsed field is falsy or missing), and whose summary fields are
non-empty whenever they are strings; in particular a parse failure never
escapes as an exception. -/
theorem summarize_total_amended (parseOutcome : Option Json)
    (hnn : parseOutcome ≠ some Json.null) (hnu : parseOutcome ≠ some Json.undefined) :
    ∃ sd : LectureSummary, summarizeLecture parseOutcome none = .ok sd ∧
      isArray sd.claims = true ∧ isArray sd.transliterations = true ∧
      isArray sd.warnings = true ∧
      jsTruthy sd.summary_short = true ∧ jsTruthy sd.summary_medium = true ∧
      jsTruthy sd.summary_long = true ∧
      (∀ s, sd.summary_short = Json.str s → s ≠ "") ∧
      (∀ s, sd.summary_medium = Json.str s → s ≠ "") ∧
      (∀ s, sd.summary_long = Json.str s → s ≠ "") := by
  have hfb : jsTruthy (Json.str "Summary generation failed.") = true := rfl
  have main : ∀ j : Json, j ≠ .null → j ≠ .undefined →
      ∃ sd : LectureSummary, buildSummaryData j = .ok sd ∧
        isArray sd.claims = true ∧ isArray sd.transliterations = true ∧
        isArray sd.warnings = true ∧
        jsTruthy sd.summary_short = true ∧ jsTruthy sd.summary_medium = true ∧
        jsTruthy sd.summary_long = true ∧
        (∀ s, sd.summary_short = Json.str s → s ≠ "") ∧
        (∀ s, sd.summary_medium = Json.str s → s ≠ "") ∧
        (∀ s, sd.summary_long = Json.str s → s ≠ "") := by
    intro j hn hu
    obtain ⟨v1, h1⟩ := getProp_ok j hn hu "summary_short"
    obtain ⟨v2, h2⟩ := getProp_ok j hn hu "summary_medium"
    obtain ⟨v3, h3⟩ := getProp_ok j hn hu "summary_long"
    obtain ⟨v4, h4⟩ := getProp_ok j hn hu "claims"
    obtain ⟨v5, h5⟩ := getProp_ok j hn hu "transliterations"
    obtain ⟨v6, h6⟩ := getProp_ok j hn hu "warnings"
    refine ⟨{ summary_short := jsOr v1 (.str "Summary generation failed.")
              summary_medium := jsOr v2 (.str "Summary generation failed.")
              summary_long := jsOr v3 (.str "Summary generation failed.")
              claims := if isArray v4 then v4 else .arr []
              transliterations := if isArray v5 then v5 else .arr []
              warnings := if isArray v6 then v6 else .arr [] }, ?_,
      isArray_validate v4, isArray_validate v5, isArray_validate v6,
      jsTruthy_jsOr v1 _ hfb, jsTruthy_jsOr v2 _ hfb, jsTruthy_jsOr v3 _ hfb,
      fun s h => jsOr_str_ne v1 s h, fun s h => jsOr_str_ne v2 s h,
      fun s h => jsOr_str_ne v3 s h⟩
    unfold buildSummaryData
    rw [h1, h2, h3, h4, h5, h6]
  cases parseOutcome with
  | none =>
      obtain ⟨sd, hsd, hrest⟩ := main (.obj []) (by intro h; cases h) (by intro h; cases h)
      exact ⟨sd, ⟨by simp [summarizeLecture, hsd], hrest⟩⟩
  | some j =>
      have hn : j ≠ .null := by intro h; exact hnn (by rw [h])
      have hu : j ≠ .undefined := by intro h; exact hnu (by rw [h])
      obtain ⟨sd, hsd, hrest⟩ := main j hn hu
      exact ⟨sd, ⟨by simp [summarizeLecture, hsd], hrest⟩⟩

theorem summarize_total_amended_witness :
    ((none : Option Json) ≠ some Json.null ∧ (none : Option Json) ≠ some Json.undefined) ∧
    (∃ sd : LectureSummary, summarizeLecture none none = .ok sd ∧
      isArray sd.claims = true ∧ isArray sd.transliterations = true ∧
      isArray sd.warnings = true ∧
      jsTruthy sd.summary_short = true ∧ jsTruthy sd.summary_medium = true ∧
      jsTruthy sd.summary_long = true ∧
      (∀ s, sd.summary_short = Json.str s → s ≠ "") ∧
      (∀ s, sd.summary_medium = Json.str s → s ≠ "") ∧
      (∀ s, sd.summary_long = Json.str s → s ≠ "")) :=
  ⟨⟨(by intro h; cases h), (by intro h; cases h)⟩,
    summarize_total_amended none (by intro h; cases h) (by intro h; cases h)⟩

structure UserPreferences where
  transliterationScheme : String
  includeLiteralTranslation : Bool
deriving DecidableEq

structure User where
  id : String
  username : String
  email : String
  preferences : UserPreferences
deriving DecidableEq

def DEFAULT_PREFERENCES : UserPreferences :=
  { transliterationScheme := "ISO", includeLiteralTranslation := true }

/-- The persistent state behind the storage service: the stored user list
and the current-user key. -/
structure Store where
  users : List User
  currentUserId : Option String
deriving DecidableEq

namespace StorageService

def getUsers (st : Store) : List User :=
  st.users

/-- Replace the first user with a matching id. -/
def replaceFirstById : List User → User → List User
  | [], _ => []
  | u :: us, nu => if u.id == nu.id then nu :: us else u :: replaceFirstById us nu

/-- Update the stored user with the same id when one exists, append the
user otherwise. -/
def saveUser (st : Store) (user : User) : Store :=
  if (getUsers st).any (fun u => u.id == user.id) then
    { st with users := replaceFirstById st.users user }
  else { st with users := st.users ++ [user] }

/-- Look a user up by username ignoring case; on success set the
current-user key and return the user, otherwise return null. -/
def login (st : Store) (username : String) : Store × Option User :=
  match (getUsers st).find? (fun u => u.username.toLower == username.toLower) with
  | some u => ({ st with currentUserId := some u.id }, some u)
  | none => (st, none)

/-- Register a user: raise when the username is already taken ignoring
case, otherwise store a new user (id freshly generated by the caller of
the embedding, standing for the random UUID) with default preferences and
set the current-user key. -/
def register (st : Store) (username email newId : String) :
    Except String (Store × User) :=
  if (getUsers st).any (fun u => u.username.toLower == username.toLower) then
    Except.error "Username already exists"
  else
    let newUser : User := { id := newId, username := username, email := email,
                            preferences := DEFAULT_PREFERENCES }
    let st1 := saveUser st newUser
    Except.ok ({ st1 with currentUserId := some newId }, newUser)

end StorageService

/-- Claim C10: register raises the duplicate-username error exactly when a
stored username matches ignoring case; with a fresh id and no such match
it appends exactly one user carrying the default preferences and sets the
current-user key to the new id; login returns a stored user exactly when
one matches ignoring case, never modifies the stored users, and on a miss
returns null leaving the whole store unchanged. -/
theorem register_login_spec (st : Store) (username email newId : String) :
    (StorageService.register st username email newId =
        Except.error "Username already exists" ↔
      ∃ u ∈ st.users, u.username.toLower = username.toLower) ∧
    ((∀ u ∈ st.users, u.id ≠ newId) →
      (∀ u ∈ st.users, u.username.toLower ≠ username.toLower) →
      StorageService.register st username email newId =
        Except.ok
          ({ users := st.users ++
                        [{ id := newId, username := username, email := email,
                           preferences := DEFAULT_PREFERENCES }],
             currentUserId := some newId },
           { id := newId, username := username, email := email,
             preferences := DEFAULT_PREFERENCES })) ∧
    ((StorageService.login st username).2.isSome = true ↔
      ∃ u ∈ st.users, u.username.toLower = username.toLower) ∧
    (∀ u, (StorageService.login st username).2 = some u →
      u ∈ st.users ∧ u.username.toLower = username.toLower) ∧
    (StorageService.login st username).1.users = st.users ∧
    ((StorageService.login st username).2 = none →
      StorageService.login st username = (st, none)) := by
  refine ⟨?_, ?_, ?_, ?_, ?_, ?_⟩
  · by_cases hany : st.users.any
        (fun u => u.username.toLower == username.toLower) = true
    · constructor
      · intro _
        obtain ⟨u, hu, hp⟩ := List.any_eq_true.mp hany
        exact ⟨u, hu, by simpa using hp⟩
      · intro _
        simp [StorageService.register, StorageService.getUsers, hany]
    · constructor
      · intro h
        exfalso
        rw [Bool.not_eq_true] at hany
        simp [StorageService.register, StorageService.getUsers, hany] at h
      · intro ⟨u, hu, he⟩
        exfalso
        apply hany
        exact List.any_eq_true.mpr ⟨u, hu, by simpa using he⟩
  · intro hfresh hnom
    have hany : st.users.any
        (fun u => u.username.toLower == username.toLower) = false := by
      rw [List.any_eq_false]
      intro u hu hbe
      exact hnom u hu (by simpa using hbe)
    have hid : st.users.any (fun u => u.id == newId) = false := by
      rw [List.any_eq_false]
      intro u hu hbe
      exact hfresh u hu (by simpa using hbe)
    simp [StorageService.register, StorageService.saveUser,
      StorageService.getUsers, hany, hid]
  · cases hf : st.users.find? (fun u => u.username.toLower == username.toLower) with
    | none =>
        simp only [StorageService.login, StorageService.getUsers, hf]
        simp only [Option.isSome_none, Bool.false_eq_true, false_iff]
        intro ⟨u, hu, he⟩
        have h2 := List.find?_eq_none.mp hf u hu
        exact h2 (by simpa using he)
    | some u =>
        simp only [StorageService.login, StorageService.getUsers, hf]
        simp only [Option.isSome_some, true_iff]
        exact ⟨u, List.mem_of_find?_eq_some hf,
          by simpa using List.find?_some hf⟩
  · intro u hu
    cases hf : st.users.find? (fun v => v.username.toLower == username.toLower) with
    | none => simp [StorageService.login, StorageService.getUsers, hf] at hu
    | some v =>
        simp only [StorageService.login, StorageService.getUsers, hf,
          Option.some.injEq] at hu
        subst hu
        exact ⟨List.mem_of_find?_eq_some hf, by simpa using List.find?_some hf⟩
  · cases hf : st.users.find? (fun v => v.username.toLower == username.toLower) with
    | none => simp [StorageService.login, StorageService.getUsers, hf]
    | some v => simp [StorageService.login, StorageService.getUsers, hf]
  · intro hnone
    cases hf : st.users.find? (fun v => v.username.toLower == username.toLower) with
    | none => simp [StorageService.login, StorageService.getUsers, hf]
    | some v => simp [StorageService.login, StorageService.getUsers, hf] at hnone

theorem register_login_spec_witness :
    StorageService.register { users := [], currentUserId := none }
        "bob" "bob@example.com" "id1" =
      Except.ok
        ({ users := [{ id := "id1", username := "bob",
                       email := "bob@example.com",
                       preferences := DEFAULT_PREFERENCES }],
           currentUserId := some "id1" },
         { id := "id1", username := "bob", email := "bob@example.com",
           preferences := DEFAULT_PREFERENCES }) :=
  (register_login_spec { users := [], currentUserId := none }
      "bob" "bob@example.com" "id1").2.1 (by simp) (by simp)

end AlBayan
